import Mathlib

/-!
Verification of the JPEG2PDF pipeline (src/jpeg2pdf.py) against its
natural-language specification.

The program's core is embedded shallowly:
  * `parse_page_number_formatting_string` — the page-number format-string
    parser (lines 110–184 of the source), working over `List Char`;
  * `process_image` — the recompression step (lines 187–229), modelled as a
    function from the image's metadata to the argument record of the final
    `image.save` call;
  * `normalize_output_filepath` — the output-path normalization in `main`
    (lines 244–248);
  * `processImages` / `runPipeline` — the main image-processing loop and the
    assembly / pipeline-exhaustion branch (lines 330–413);
  * `mkPageLabel` / `mkOpenAction` / `postProcess` — the post-assembly PDF
    metadata edits (lines 420–465).

Filesystem and codec effects are represented by their observable data: the
result of opening an input file is an `Except OpenError InputImage` value
carried in the input list, and the byte size of a recompressed candidate is
the `candSize` field supplied by the codec collaborator.
-/

/- ------------------------------------------------------------------ -/
/- Format-string parser (`parse_page_number_formatting_string`)       -/
/- ------------------------------------------------------------------ -/

/-- The permitted page-numbering style characters (source line 163). -/
def styleChars : List Char := ['D', 'R', 'r', 'A', 'a']

/-- Errors raised by `parse_page_number_formatting_string` (the three
`ValueError`s at source lines 159, 166 and 180). -/
inductive FormatError
  | multipleStyles
  | invalidStyle (c : Char)
  | suffixNotPermitted
deriving DecidableEq

/-- The loop state of the format-string scan: `style` is the style character
recorded so far (the source stores `'/' + char`; we store the bare character
and re-attach the slash on return), `pos` is `page_style_pos`, and `pcr` is
the `percent_char_read` flag. -/
structure ScanState where
  style : Option Char
  pos : Option Nat
  pcr : Bool
deriving DecidableEq

/-- The initial scan state (source lines 133–139). -/
def initState : ScanState := { style := none, pos := none, pcr := false }

/-- One iteration of the scan loop (source lines 142–172), at index `i` with
current character `c`.  Note that the source's trailing
`if style is not None: page_style_pos = i-1` also runs on the `%%` "pass"
branch, so in that branch `pos` is updated whenever a style has already been
recorded. -/
def scanChar (st : ScanState) (i : Nat) (c : Char) : Except FormatError ScanState :=
  if c = '%' ∧ st.pcr = false then
    Except.ok { st with pcr := true }
  else if st.pcr = true then
    if c = '%' then
      Except.ok { style := st.style,
                  pos := if st.style.isSome then some (i - 1) else st.pos,
                  pcr := false }
    else if st.style.isSome then
      Except.error FormatError.multipleStyles
    else if c ∈ styleChars then
      Except.ok { style := some c, pos := some (i - 1), pcr := false }
    else
      Except.error (FormatError.invalidStyle c)
  else
    Except.ok st

/-- Run the scan loop from state `st`, the current character having index
`i`. -/
def scanFrom : ScanState → Nat → List Char → Except FormatError ScanState
  | st, _, [] => Except.ok st
  | st, i, c :: cs => (scanChar st i c).bind (fun st' => scanFrom st' (i + 1) cs)

/-- `parse_page_number_formatting_string` (source lines 110–184).  After the
scan, the prefix is the slice `page_format[:page_style_pos]` (the whole
string when `page_style_pos` is `None`), and an error is raised when a style
position was recorded that is not `len(page_format) - 2`.  A `some` result
pairs the prefix with the style, the latter written `'/' + char` as in the
source. -/
def parse_page_number_formatting_string (page_format : List Char) :
    Except FormatError (List Char × Option (List Char)) :=
  match scanFrom initState 0 page_format with
  | Except.error e => Except.error e
  | Except.ok st =>
    let pref : List Char :=
      match st.pos with
      | none => page_format
      | some p => page_format.take p
    match st.pos with
    | some p =>
      if p ≠ page_format.length - 2 then Except.error FormatError.suffixNotPermitted
      else Except.ok (pref, st.style.map (fun c => ['/', c]))
    | none => Except.ok (pref, st.style.map (fun c => ['/', c]))

/-- Literal text as the format-string scanner understands it: a sequence of
ordinary (non-`%`) characters and `%%` escapes, containing no style token
and no trailing unpaired `%`. -/
inductive LiteralText : List Char → Prop
  | nil : LiteralText []
  | chr {c : Char} {rest : List Char} :
      c ≠ '%' → LiteralText rest → LiteralText (c :: rest)
  | esc {rest : List Char} :
      LiteralText rest → LiteralText ('%' :: '%' :: rest)

theorem scanFrom_literal {p : List Char} (hp : LiteralText p) :
    ∀ i : Nat, scanFrom initState i p = Except.ok initState := by
  induction hp with
  | nil => intro i; rfl
  | chr hc _ ih =>
    intro i
    simp only [scanFrom, scanChar, initState]
    rw [if_neg (by simp [hc])]
    simp only [if_neg (by simp : ¬ (false = true)), Except.bind]
    exact ih (i + 1)
  | esc _ ih =>
    intro i
    simp only [scanFrom, scanChar, initState]
    rw [if_pos (by simp)]
    simp only [Except.bind]
    rw [if_neg (by simp)]
    simp only [if_pos rfl, if_pos rfl, Option.isSome_none, Bool.false_eq_true, if_false,
      Except.bind]
    exact ih (i + 2)

theorem literalText_of_no_percent {s : List Char} (h : '%' ∉ s) : LiteralText s := by
  induction s with
  | nil => exact LiteralText.nil
  | cons c cs ih =>
    refine LiteralText.chr (fun hc => h ?_) (ih fun hm => h (List.mem_cons_of_mem _ hm))
    exact hc ▸ List.mem_cons_self c cs

theorem scanFrom_append_ok (xs ys : List Char) :
    ∀ (st st' : ScanState) (i : Nat), scanFrom st i xs = Except.ok st' →
      scanFrom st i (xs ++ ys) = scanFrom st' (i + xs.length) ys := by
  induction xs with
  | nil =>
    intro st st' i h
    simp only [scanFrom] at h
    cases h
    simp
  | cons c cs ih =>
    intro st st' i h
    simp only [scanFrom] at h
    rw [List.cons_append]
    simp only [scanFrom]
    cases hc : scanChar st i c with
    | ok st₁ =>
      rw [hc] at h
      simp only [Except.bind] at h
      simp only [Except.bind]
      rw [ih st₁ st' (i + 1) h, List.length_cons]
      congr 1
      omega
    | error e =>
      rw [hc] at h
      simp only [Except.bind] at h
      cases h

theorem scanFrom_style_token {c : Char} (hc : c ∈ styleChars) (hcp : c ≠ '%') :
    ∀ i : Nat, scanFrom initState i ['%', c] =
      Except.ok { style := some c, pos := some i, pcr := false } := by
  intro i
  simp [scanFrom, scanChar, initState, Except.bind, hcp, hc]

theorem styleChar_ne_percent {c : Char} (hc : c ∈ styleChars) : c ≠ '%' := by
  intro he
  subst he
  exact absurd hc (by decide)

/-- Claim C5: for every format string consisting of literal text followed by a
single recognized style token `%c` (`c ∈ {D, R, r, A, a}`) as its final two
characters, the parser returns the literal text as the prefix and `'/' + c`
as the style; and for every input containing no `%` character, the parser
returns the whole input as the prefix and no style.  "Containing exactly one
recognized style token" is formalized by requiring the text before the final
token to be `LiteralText` (ordinary characters and `%%` escapes only), so
that no other unescaped `%` occurs. -/
theorem c5_parse_single_style_token :
    (∀ (p : List Char) (c : Char), LiteralText p → c ∈ styleChars →
      parse_page_number_formatting_string (p ++ ['%', c]) =
        Except.ok (p, some ['/', c])) ∧
    (∀ s : List Char, '%' ∉ s →
      parse_page_number_formatting_string s = Except.ok (s, none)) := by
  constructor
  · intro p c hp hc
    have hcp : c ≠ '%' := styleChar_ne_percent hc
    have h1 := scanFrom_append_ok p ['%', c] initState initState 0 (scanFrom_literal hp 0)
    rw [scanFrom_style_token hc hcp (0 + p.length)] at h1
    unfold parse_page_number_formatting_string
    rw [h1]
    simp [List.take_left]
  · intro s hs
    have h1 := scanFrom_literal (literalText_of_no_percent hs) 0
    unfold parse_page_number_formatting_string
    rw [h1]
    rfl

/-- Witness for C5: `parse("A-%D")` is `("A-", "/D")` and `parse("ab")` is
`("ab", no style)`. -/
theorem c5_parse_single_style_token_witness :
    parse_page_number_formatting_string (['A', '-'] ++ ['%', 'D']) =
      Except.ok (['A', '-'], some ['/', 'D']) ∧
    parse_page_number_formatting_string ['a', 'b'] = Except.ok (['a', 'b'], none) :=
  ⟨c5_parse_single_style_token.1 ['A', '-'] 'D'
      (LiteralText.chr (by decide) (LiteralText.chr (by decide) LiteralText.nil))
      (by decide),
    c5_parse_single_style_token.2 ['a', 'b'] (by decide)⟩

/-- Claim C10: a format string made of literal text followed by a single
trailing unescaped `%` does not fail: the whole input (trailing `%`
included) is returned as the prefix, with no style. -/
theorem c10_trailing_percent (p : List Char) (hp : LiteralText p) :
    parse_page_number_formatting_string (p ++ ['%']) = Except.ok (p ++ ['%'], none) := by
  have h2 : ∀ i, scanFrom initState i ['%'] =
      Except.ok { style := none, pos := none, pcr := true } := by
    intro i
    simp [scanFrom, scanChar, initState, Except.bind]
  have h1 := scanFrom_append_ok p ['%'] initState initState 0 (scanFrom_literal hp 0)
  rw [h2 (0 + p.length)] at h1
  unfold parse_page_number_formatting_string
  rw [h1]
  rfl

/-- Witness for C10: `parse("abc%")` is `("abc%", no style)`. -/
theorem c10_trailing_percent_witness :
    parse_page_number_formatting_string (['a', 'b', 'c'] ++ ['%']) =
      Except.ok (['a', 'b', 'c'] ++ ['%'], none) :=
  c10_trailing_percent ['a', 'b', 'c']
    (LiteralText.chr (by decide)
      (LiteralText.chr (by decide) (LiteralText.chr (by decide) LiteralText.nil)))

/-- Claim C2 (code bug): the parser does NOT collapse `%%` to a single `%` in
the returned prefix.  The prefix is the raw slice `page_format[:page_style_pos]`
of the input, so `parse("100%%")` returns the prefix `"100%%"` (both percent
signs), not `"100%"` as the claim — and the source's own comment, which calls
`%%` a way "to write a literal percent sign in the prefix" — state. -/
theorem c2_double_percent_not_collapsed :
    parse_page_number_formatting_string ['1', '0', '0', '%', '%'] =
      Except.ok (['1', '0', '0', '%', '%'], none) ∧
    (['1', '0', '0', '%', '%'] : List Char) ≠ ['1', '0', '0', '%'] :=
  ⟨rfl, by decide⟩

/-- Claim C6 (code bug): the three inputs named by the claim do fail as
stated, but the "exactly these cases" characterization is violated:
`parse("%D%%")` succeeds with `("%D", "/D")` although its style token `%D`
is not the final two characters (the suffix `%%` follows it), because the
`%%`-escape branch re-records `page_style_pos` at the position of the escape
whenever a style is already set, defeating the end-of-string check that the
source's own comment ("the page numbering style must be located at the end
of the formatting string") requires. -/
theorem c6_suffix_check_bypassed :
    parse_page_number_formatting_string ['%', 'D', '%', '%'] =
      Except.ok (['%', 'D'], some ['/', 'D']) ∧
    parse_page_number_formatting_string ['%', 'D', '-', 'x'] =
      Except.error FormatError.suffixNotPermitted ∧
    parse_page_number_formatting_string ['%', 'D', '%', 'r'] =
      Except.error FormatError.multipleStyles ∧
    parse_page_number_formatting_string ['%', 'z'] =
      Except.error (FormatError.invalidStyle 'z') :=
  ⟨rfl, rfl, rfl, rfl⟩

/- ------------------------------------------------------------------ -/
/- Recompression decision (`process_image` and the selection rule)    -/
/- ------------------------------------------------------------------ -/

/-- Python's `str.upper()`, used by the source in `image.format.upper()`. -/
def pyUpper (s : String) : String := String.mk (s.data.map Char.toUpper)

/-- The per-image selection of the main loop (source lines 356–368): keep
the original file when the image's detected format upper-cases to `"JPEG"`,
`recompress_all_jpegs` is `False`, and the original's byte size is at most
the recompressed file's byte size; otherwise use the recompressed file. -/
def chooseImageFile (origPath candPath fmt : String) (recompressAllJpegs : Bool)
    (origSize candSize : Nat) : String :=
  if pyUpper fmt = "JPEG" ∧ recompressAllJpegs = false ∧ origSize ≤ candSize then
    origPath
  else
    candPath

/-- Claim C1: the original path is kept if and only if the detected format is
the codec's native format JPEG (the source compares `image.format.upper()`
with `'JPEG'`), forced recompression is off, and the original's byte size is
at most the recompressed candidate's; in every other case the recompressed
candidate's path is the one appended. -/
theorem c1_selection_rule (origPath candPath fmt : String) (recompressAllJpegs : Bool)
    (origSize candSize : Nat) (hne : origPath ≠ candPath) :
    (chooseImageFile origPath candPath fmt recompressAllJpegs origSize candSize = origPath ↔
      (pyUpper fmt = "JPEG" ∧ recompressAllJpegs = false ∧ origSize ≤ candSize)) ∧
    (¬(pyUpper fmt = "JPEG" ∧ recompressAllJpegs = false ∧ origSize ≤ candSize) →
      chooseImageFile origPath candPath fmt recompressAllJpegs origSize candSize = candPath) := by
  unfold chooseImageFile
  by_cases h : pyUpper fmt = "JPEG" ∧ recompressAllJpegs = false ∧ origSize ≤ candSize
  · rw [if_pos h]
    exact ⟨⟨fun _ => h, fun _ => rfl⟩, fun hn => absurd h hn⟩
  · rw [if_neg h]
    exact ⟨⟨fun he => absurd he.symm hne, fun hh => absurd hh h⟩, fun _ => rfl⟩

/-- Witness for C1: a JPEG original of 1000 bytes against a 2000-byte
recompressed candidate, with forced recompression off, is kept. -/
theorem c1_selection_rule_witness :
    chooseImageFile "a.jpg" "/tmp/page0001.jpg" "JPEG" false 1000 2000 = "a.jpg" :=
  ((c1_selection_rule "a.jpg" "/tmp/page0001.jpg" "JPEG" false 1000 2000
    (by decide)).1).mpr ⟨by decide, rfl, by decide⟩

/-- The metadata `process_image` reads from the decoded image: the optional
`dpi` and JFIF entries of `image.info`, the detected format, and the color
mode (source lines 201–219). -/
structure ImageMeta where
  dpi : Option (Nat × Nat)
  jfifDensity : Option (Nat × Nat)
  jfifUnit : Option Nat
  format : String
  mode : String

/-- The `ValueError` raised for an out-of-range compression quality (source
lines 196–199). -/
inductive ProcessImageError
  | invalidQuality

/-- The arguments of the `image.save` call at source lines 224–229 (plus the
color mode the image has at that point, after the palette conversion at
lines 218–219). -/
structure JpegSaveArgs where
  optimize : Bool
  quality : Nat
  jfifDensityArg : Nat × Nat
  jfifUnitArg : Nat
  dpiArg : Nat × Nat
  modeSaved : String

/-- The density determination of `process_image` (source lines 202–212):
prefer `image.info['dpi']`; else, for a JPEG source, read the JFIF fields,
where a missing `jfif_density` raises `KeyError` before either assignment
(both defaults kept) and a missing `jfif_unit` raises it between the two
(density updated, unit default 1); else keep the defaults `(72,72)`, 1. -/
def imageDensity (img : ImageMeta) : (Nat × Nat) × Nat :=
  match img.dpi with
  | some d => (d, 1)
  | none =>
    if pyUpper img.format = "JPEG" then
      match img.jfifDensity with
      | none => ((72, 72), 1)
      | some d =>
        match img.jfifUnit with
        | none => (d, 1)
        | some u => (d, u)
    else ((72, 72), 1)

/-- `process_image` (source lines 187–229): validate the `quality` argument,
then save. The saved quality is the module-level `jpeg_compression_quality`
(first parameter here), exactly as in the source's `image.save` call, not
the validated `quality` argument. -/
def process_image (jpeg_compression_quality : Nat) (quality : Nat) (img : ImageMeta) :
    Except ProcessImageError JpegSaveArgs :=
  if ¬(1 ≤ quality ∧ quality ≤ 100) then
    Except.error ProcessImageError.invalidQuality
  else
    Except.ok { optimize := true,
                quality := jpeg_compression_quality,
                jfifDensityArg := (imageDensity img).1,
                jfifUnitArg := (imageDensity img).2,
                dpiArg := (imageDensity img).1,
                modeSaved := if img.mode = "1" ∨ img.mode = "L" ∨ img.mode = "P"
                             then "RGB" else img.mode }

/-- Claim C3 (code bug): with the module-level default quality 75, calling
`process_image` with `quality=50` encodes at quality 75 — the `image.save`
call passes the global `jpeg_compression_quality`, not the validated
`quality` argument the claim (and the function's own docstring) describe. -/
theorem c3_save_quality_is_global :
    process_image 75 50
      { dpi := some (300, 300), jfifDensity := none, jfifUnit := none,
        format := "JPEG", mode := "RGB" } =
      Except.ok { optimize := true, quality := 75, jfifDensityArg := (300, 300),
                  jfifUnitArg := 1, dpiArg := (300, 300), modeSaved := "RGB" } ∧
    (75 : Nat) ≠ 50 :=
  ⟨rfl, by decide⟩

/- ------------------------------------------------------------------ -/
/- Output-filepath normalization (source lines 244–248)               -/
/- ------------------------------------------------------------------ -/

/-- Python's `str.find`: the first index of `t` in `s`, or `-1`. -/
def strFind : List Char → Char → Int
  | [], _ => -1
  | c :: cs, t =>
    if c = t then 0
    else
      let r := strFind cs t
      if r = -1 then -1 else r + 1

/-- The output-filepath normalization of `main` (source lines 244–248): when
`pdf_output_filepath.find('.') == -1`, append `'.pdf'`. -/
def normalize_output_filepath (p : List Char) : List Char :=
  if strFind p '.' = -1 then p ++ ".pdf".data else p

/-- Modelled from the spec: the final path component of a path (the text
after the last `/`). -/
def lastComponent (p : List Char) : List Char :=
  p.foldl (fun acc c => if c = '/' then [] else acc ++ [c]) []

/-- Modelled from the spec: whether a path "has an extension" — its final
path component contains a `.` after the component's leading dots, following
`os.path.splitext` semantics. -/
def hasExtensionSpec (p : List Char) : Bool :=
  ((lastComponent p).dropWhile (fun c => c = '.')).contains '.'

theorem strFind_lower_bound (s : List Char) (t : Char) : -1 ≤ strFind s t := by
  induction s with
  | nil => simp [strFind]
  | cons c cs ih =>
    simp only [strFind]
    by_cases hct : c = t
    · rw [if_pos hct]; omega
    · rw [if_neg hct]
      by_cases hr : strFind cs t = -1
      · simp only [hr, if_pos rfl]; omega
      · rw [if_neg hr]; omega

theorem strFind_eq_neg_one_iff (s : List Char) (t : Char) :
    strFind s t = -1 ↔ t ∉ s := by
  induction s with
  | nil => simp [strFind]
  | cons c cs ih =>
    simp only [strFind, List.mem_cons]
    by_cases hct : c = t
    · subst hct
      rw [if_pos rfl]
      simp
    · rw [if_neg hct]
      by_cases hr : strFind cs t = -1
      · simp only [hr, if_pos rfl]
        have hni := ih.mp hr
        have htc : ¬t = c := fun h => hct h.symm
        simp [hni, htc]
      · rw [if_neg hr]
        have hge := strFind_lower_bound cs t
        have hmem : t ∈ cs := by
          by_contra hn
          exact hr (ih.mpr hn)
        constructor
        · intro h; exfalso; omega
        · intro h; exact absurd (Or.inr hmem) h

/-- Counterexample to Claim C9: the path `my.dir/output` has no extension
(its final component `output` contains no dot), yet the program leaves it
unchanged — the source tests `find('.') == -1` over the whole path, and the
directory part contains a dot. -/
theorem c9_counterexample :
    hasExtensionSpec "my.dir/output".data = false ∧
    normalize_output_filepath "my.dir/output".data = "my.dir/output".data ∧
    "my.dir/output".data ≠ "my.dir/output".data ++ ".pdf".data :=
  ⟨rfl, rfl, by decide⟩

/-- Claim C9 as amended: `.pdf` is appended exactly when the output path
contains no `.` character anywhere (directory components included); a path
containing any `.` is left unchanged. -/
theorem c9_extension_appended_iff_no_dot (p : List Char) :
    (normalize_output_filepath p = p ++ ".pdf".data ↔ '.' ∉ p) ∧
    ('.' ∈ p → normalize_output_filepath p = p) := by
  unfold normalize_output_filepath
  by_cases h : strFind p '.' = -1
  · rw [if_pos h]
    have hnotin := (strFind_eq_neg_one_iff p '.').mp h
    exact ⟨⟨fun _ => hnotin, fun _ => rfl⟩, fun hin => absurd hin hnotin⟩
  · rw [if_neg h]
    have hin : '.' ∈ p := by
      by_contra hn
      exact h ((strFind_eq_neg_one_iff p '.').mpr hn)
    refine ⟨⟨fun he => ?_, fun hnot => absurd hin hnot⟩, fun _ => rfl⟩
    exfalso
    have hlen := congrArg List.length he
    simp at hlen

/-- Witness for the amended C9: `a.b` contains a dot and stays unchanged. -/
theorem c9_extension_appended_iff_no_dot_witness :
    normalize_output_filepath "a.b".data = "a.b".data :=
  (c9_extension_appended_iff_no_dot "a.b".data).2 (by decide)

/- ------------------------------------------------------------------ -/
/- Pipeline orchestrator (main image-processing loop, lines 330–413)  -/
/- ------------------------------------------------------------------ -/

/-- The two per-input exceptions the loop catches: `FileNotFoundError`
(source line 373) and `PIL.UnidentifiedImageError` (line 377). -/
inductive OpenError
  | fileNotFound
  | unidentifiedImage

/-- What opening one input file yields: its detected format, its byte size,
and the byte size `candSize` of the recompressed temporary file the codec
produces for it (the result of `process_image`, supplied by the external
codec collaborator). -/
structure InputImage where
  format : String
  size : Nat
  candSize : Nat

def exceptIsError {ε α : Type} : Except ε α → Bool
  | Except.error _ => true
  | Except.ok _ => false

/-- Zero-padding of `'{:0Nd}'.format(ctr)` for a non-negative counter. -/
def padZeros (width : Nat) (s : String) : String :=
  String.mk (List.replicate (width - s.length) '0') ++ s

/-- The temporary image filename `page{:0Nd}.jpg` (source lines 321–323 and
345–347), where the width is `max(4, len(str(len(input_files))))`. -/
def tempImageName (width ctr : Nat) : String :=
  "page" ++ padZeros width (toString ctr) ++ ".jpg"

/-- `os.path.join` on a POSIX temporary-directory path. -/
def joinPath (dir file : String) : String := dir ++ "/" ++ file

/-- One iteration of the main loop (source lines 338–370) over the
accumulated `(input_file_counter, image_files)` state: a failed open is
caught and skipped; a successful open recompresses into
`page{counter}.jpg`, appends the chosen file, and increments the counter. -/
def processStep (recompressAllJpegs : Bool) (tempDir : String) (width : Nat)
    (acc : Nat × List String) (pr : String × Except OpenError InputImage) :
    Nat × List String :=
  match pr.2 with
  | Except.error _ => acc
  | Except.ok img =>
    (acc.1 + 1,
     acc.2 ++ [chooseImageFile pr.1 (joinPath tempDir (tempImageName width acc.1))
                 img.format recompressAllJpegs img.size img.candSize])

/-- The main image-processing loop: `image_files` after all inputs have been
attempted, the counter starting at 1 (source line 337). -/
def processImages (recompressAllJpegs : Bool) (tempDir : String)
    (inputs : List (String × Except OpenError InputImage)) : List String :=
  (inputs.foldl
    (processStep recompressAllJpegs tempDir (max 4 (toString inputs.length).length))
    (1, [])).2

/-- The branch at source lines 382–413: a non-empty `image_files` list is
passed to `img2pdf.convert`; an empty one terminates the run with no PDF. -/
inductive PipelineOutcome
  | assembled (imageFiles : List String)
  | noUsableInputs

def runPipeline (recompressAllJpegs : Bool) (tempDir : String)
    (inputs : List (String × Except OpenError InputImage)) : PipelineOutcome :=
  let imageFiles := processImages recompressAllJpegs tempDir inputs
  if imageFiles = [] then PipelineOutcome.noUsableInputs
  else PipelineOutcome.assembled imageFiles

/-- The valid inputs: those whose open succeeded, in input order. -/
def okInputs (inputs : List (String × Except OpenError InputImage)) :
    List (String × InputImage) :=
  inputs.filterMap (fun pr =>
    match pr.2 with
    | Except.ok img => some (pr.1, img)
    | Except.error _ => none)

/-- The path the loop appends for the `ctr`-th successfully opened input. -/
def chosenPathFor (recompressAllJpegs : Bool) (tempDir : String) (width : Nat)
    (ctr : Nat) (pr : String × InputImage) : String :=
  chooseImageFile pr.1 (joinPath tempDir (tempImageName width ctr))
    pr.2.format recompressAllJpegs pr.2.size pr.2.candSize

theorem foldl_processStep (r : Bool) (t : String) (w : Nat) :
    ∀ (inputs : List (String × Except OpenError InputImage)) (ctr : Nat)
      (acc : List String),
      inputs.foldl (processStep r t w) (ctr, acc) =
        (ctr + (okInputs inputs).length,
         acc ++ (List.enumFrom ctr (okInputs inputs)).map
           (fun pr => chosenPathFor r t w pr.1 pr.2)) := by
  intro inputs
  induction inputs with
  | nil => intro ctr acc; simp [okInputs]
  | cons x xs ih =>
    intro ctr acc
    cases hx : x.2 with
    | error e =>
      have hstep : processStep r t w (ctr, acc) x = (ctr, acc) := by
        simp [processStep, hx]
      have hok : okInputs (x :: xs) = okInputs xs := by
        simp [okInputs, List.filterMap_cons, hx]
      rw [List.foldl_cons, hstep, ih ctr acc, hok]
    | ok img =>
      have hstep : processStep r t w (ctr, acc) x =
          (ctr + 1, acc ++ [chosenPathFor r t w ctr (x.1, img)]) := by
        simp [processStep, hx, chosenPathFor]
      have hok : okInputs (x :: xs) = (x.1, img) :: okInputs xs := by
        simp [okInputs, List.filterMap_cons, hx]
      rw [List.foldl_cons, hstep, ih (ctr + 1) (acc ++ [chosenPathFor r t w ctr (x.1, img)]),
        hok]
      rw [show List.enumFrom ctr ((x.1, img) :: okInputs xs) =
        (ctr, (x.1, img)) :: List.enumFrom (ctr + 1) (okInputs xs) from rfl]
      simp only [List.map_cons, List.length_cons, Prod.mk.injEq]
      exact ⟨by omega, by simp⟩

theorem okInputs_length (inputs : List (String × Except OpenError InputImage)) :
    (okInputs inputs).length =
      inputs.length - inputs.countP (fun pr => exceptIsError pr.2) := by
  induction inputs with
  | nil => rfl
  | cons x xs ih =>
    have hcle := List.countP_le_length (fun pr => exceptIsError pr.2) (l := xs)
    cases hx : x.2 with
    | error e =>
      have h1 : okInputs (x :: xs) = okInputs xs := by
        simp [okInputs, List.filterMap_cons, hx]
      have h2 : (x :: xs).countP (fun pr => exceptIsError pr.2) =
          xs.countP (fun pr => exceptIsError pr.2) + 1 := by
        rw [List.countP_cons]
        simp [hx, exceptIsError]
      rw [h1, h2, ih, List.length_cons]
      omega
    | ok img =>
      have h1 : okInputs (x :: xs) = (x.1, img) :: okInputs xs := by
        simp [okInputs, List.filterMap_cons, hx]
      have h2 : (x :: xs).countP (fun pr => exceptIsError pr.2) =
          xs.countP (fun pr => exceptIsError pr.2) := by
        rw [List.countP_cons]
        simp [hx, exceptIsError]
      rw [h1, h2, List.length_cons, List.length_cons, ih]
      omega

theorem okInputs_eq_nil (inputs : List (String × Except OpenError InputImage))
    (h : ∀ pr ∈ inputs, exceptIsError pr.2 = true) : okInputs inputs = [] := by
  induction inputs with
  | nil => rfl
  | cons x xs ih =>
    have hx := h x (List.mem_cons_self x xs)
    cases hx2 : x.2 with
    | ok img => rw [hx2] at hx; simp [exceptIsError] at hx
    | error e =>
      have h1 : okInputs (x :: xs) = okInputs xs := by
        simp [okInputs, List.filterMap_cons, hx2]
      rw [h1]
      exact ih (fun pr hpr => h pr (List.mem_cons_of_mem _ hpr))

/-- Claim C4: the loop's output list is exactly the per-valid-input chosen
paths, in the relative order of the valid inputs (the `j`-th output is the
chosen path of the `j`-th valid input, recompressed under counter `j`
starting from 1); its length is `N - K` for `N` inputs of which `K` fail to
open; and when every input fails, the run ends in the
no-usable-inputs branch without invoking assembly. -/
theorem c4_orchestrator (recompressAllJpegs : Bool) (tempDir : String)
    (inputs : List (String × Except OpenError InputImage)) :
    processImages recompressAllJpegs tempDir inputs =
      (List.enumFrom 1 (okInputs inputs)).map
        (fun pr => chosenPathFor recompressAllJpegs tempDir
          (max 4 (toString inputs.length).length) pr.1 pr.2) ∧
    (processImages recompressAllJpegs tempDir inputs).length =
      inputs.length - inputs.countP (fun pr => exceptIsError pr.2) ∧
    ((∀ pr ∈ inputs, exceptIsError pr.2 = true) →
      runPipeline recompressAllJpegs tempDir inputs =
        PipelineOutcome.noUsableInputs) := by
  have hmain : processImages recompressAllJpegs tempDir inputs =
      (List.enumFrom 1 (okInputs inputs)).map
        (fun pr => chosenPathFor recompressAllJpegs tempDir
          (max 4 (toString inputs.length).length) pr.1 pr.2) := by
    unfold processImages
    rw [foldl_processStep recompressAllJpegs tempDir
      (max 4 (toString inputs.length).length) inputs 1 []]
    simp
  refine ⟨hmain, ?_, ?_⟩
  · rw [hmain, List.length_map, List.enumFrom_length]
    exact okInputs_length inputs
  · intro hall
    unfold runPipeline
    rw [hmain, okInputs_eq_nil inputs hall]
    rfl

/-- Witness for C4: a run whose two inputs both fail to open ends in the
no-usable-inputs branch. -/
theorem c4_orchestrator_witness :
    runPipeline false "/tmp/ttt"
      [("a.png", Except.error OpenError.fileNotFound),
       ("b.png", Except.error OpenError.unidentifiedImage)] =
      PipelineOutcome.noUsableInputs :=
  (c4_orchestrator false "/tmp/ttt"
    [("a.png", Except.error OpenError.fileNotFound),
     ("b.png", Except.error OpenError.unidentifiedImage)]).2.2 (by decide)

/- ------------------------------------------------------------------ -/
/- PDF post-processing (source lines 420–465)                         -/
/- ------------------------------------------------------------------ -/

/-- The page-label dictionary built at source lines 432–438: `/P` (prefix),
`/S` (style) and `/St` (starting number), each present only when its guard
holds. -/
structure PageLabelDict where
  P : Option String
  S : Option String
  St : Option Nat
deriving DecidableEq

/-- Python truthiness of an optional string: `None` and `''` are falsy. -/
def pyTruthyStr : Option String → Bool
  | none => false
  | some s => decide (s ≠ "")

/-- The `page_label` dictionary (source lines 432–438): `/P` is set when
`page_numbering_prefix` is truthy, `/S` when `page_numbering_style` is
truthy, `/St` when `first_page > 1`. -/
def mkPageLabel (pageNumberingPref pageNumberingStyle : Option String)
    (firstPage : Nat) : PageLabelDict :=
  { P := if pyTruthyStr pageNumberingPref = true then pageNumberingPref else none,
    S := if pyTruthyStr pageNumberingStyle = true then pageNumberingStyle else none,
    St := if firstPage > 1 then some firstPage else none }

/-- An element of a PDF destination array: a number or a name. -/
inductive PdfValue
  | num (n : Int)
  | name (s : String)
deriving DecidableEq

/-- The `/OpenAction` construction (source lines 447–465): when a
magnification was requested, the array `[page_to_open, '/'+magnification]`
with the page height appended for `FitH` and `0` appended for `FitV`;
when none was requested, no entry at all. -/
def mkOpenAction (magnification : Option String) (pageHeight : Int) :
    Option (List PdfValue) :=
  match magnification with
  | none => none
  | some mag =>
    let arr := [PdfValue.num 0, PdfValue.name ("/" ++ mag)]
    let arr := if mag = "FitH" then arr ++ [PdfValue.num pageHeight]
               else if mag = "FitV" then arr ++ [PdfValue.num 0]
               else arr
    some arr

/-- The document-root entries written by the post-processing section:
`pdf.Root['/PageLabels'] = {'/Nums': [0, page_label]}` (line 439) and the
conditional `pdf.Root['/OpenAction']` (line 465). -/
structure PdfRoot where
  pageLabelNums : List (Nat × PageLabelDict)
  openAction : Option (List PdfValue)
deriving DecidableEq

def postProcess (pageNumberingPref pageNumberingStyle : Option String)
    (firstPage : Nat) (magnification : Option String) (pageHeight : Int) : PdfRoot :=
  { pageLabelNums := [(0, mkPageLabel pageNumberingPref pageNumberingStyle firstPage)],
    openAction := mkOpenAction magnification pageHeight }

/-- Claim C7: the installed page-label table is a single range at page index
0; its prefix field is present iff the parsed prefix is a non-empty string,
its style field iff a style was parsed (parsed styles are `'/'+char`, hence
non-empty), and its starting-number field iff `first_page > 1`; in
particular for `first_page=5` and style `/D` the entry has `/St = 5` and
`/S = /D`, and for `first_page=1` no `/St` is present. -/
theorem c7_page_label_fields (pnPref pnStyle : Option String) (firstPage : Nat)
    (magnification : Option String) (pageHeight : Int)
    (hstyle : ∀ s ∈ pnStyle, s ≠ "") :
    (postProcess pnPref pnStyle firstPage magnification pageHeight).pageLabelNums =
      [(0, mkPageLabel pnPref pnStyle firstPage)] ∧
    ((mkPageLabel pnPref pnStyle firstPage).P ≠ none ↔
      ∃ s, pnPref = some s ∧ s ≠ "") ∧
    ((mkPageLabel pnPref pnStyle firstPage).S ≠ none ↔ pnStyle ≠ none) ∧
    ((mkPageLabel pnPref pnStyle firstPage).St ≠ none ↔ 1 < firstPage) ∧
    (mkPageLabel pnPref (some "/D") 5).St = some 5 ∧
    (mkPageLabel pnPref (some "/D") 5).S = some "/D" ∧
    (mkPageLabel pnPref pnStyle 1).St = none := by
  refine ⟨rfl, ?_, ?_, ?_, ?_, ?_, ?_⟩
  · cases pnPref with
    | none => simp [mkPageLabel, pyTruthyStr]
    | some s =>
      by_cases hs : s = ""
      · subst hs; simp [mkPageLabel, pyTruthyStr]
      · simp [mkPageLabel, pyTruthyStr, hs]
  · cases pnStyle with
    | none => simp [mkPageLabel, pyTruthyStr]
    | some s =>
      have hs : s ≠ "" := hstyle s (Option.mem_def.mpr rfl)
      simp [mkPageLabel, pyTruthyStr, hs]
  · unfold mkPageLabel
    by_cases h : firstPage > 1
    · simp [h]
    · simp [h]
  · simp [mkPageLabel]
  · simp [mkPageLabel, pyTruthyStr]
  · simp [mkPageLabel]

/-- Witness for C7 at prefix `A-`, style `/D`, first page 5 (and first page
1 for the last conjunct). -/
theorem c7_page_label_fields_witness :
    (postProcess (some "A-") (some "/D") 5 none 0).pageLabelNums =
      [(0, mkPageLabel (some "A-") (some "/D") 5)] ∧
    ((mkPageLabel (some "A-") (some "/D") 5).P ≠ none ↔
      ∃ s, (some "A-" : Option String) = some s ∧ s ≠ "") ∧
    ((mkPageLabel (some "A-") (some "/D") 5).S ≠ none ↔
      (some "/D" : Option String) ≠ none) ∧
    ((mkPageLabel (some "A-") (some "/D") 5).St ≠ none ↔ 1 < 5) ∧
    (mkPageLabel (some "A-") (some "/D") 5).St = some 5 ∧
    (mkPageLabel (some "A-") (some "/D") 5).S = some "/D" ∧
    (mkPageLabel (some "A-") (some "/D") 1).St = none :=
  c7_page_label_fields (some "A-") (some "/D") 5 none 0
    (by intro s hs; simp [Option.mem_def] at hs; subst hs; decide)

/-- Claim C8: with a magnification requested the installed open action is
`[0, name]` with the page height appended for `FitH` (FitWidth), `0`
appended for `FitV` (FitHeight) and nothing appended for `Fit` (FitPage);
with no magnification requested no open-action entry is installed. -/
theorem c8_open_action_shape (pnPref pnStyle : Option String) (firstPage : Nat)
    (pageHeight : Int) :
    (postProcess pnPref pnStyle firstPage none pageHeight).openAction = none ∧
    (postProcess pnPref pnStyle firstPage (some "FitH") pageHeight).openAction =
      some [PdfValue.num 0, PdfValue.name "/FitH", PdfValue.num pageHeight] ∧
    (postProcess pnPref pnStyle firstPage (some "FitV") pageHeight).openAction =
      some [PdfValue.num 0, PdfValue.name "/FitV", PdfValue.num 0] ∧
    (postProcess pnPref pnStyle firstPage (some "Fit") pageHeight).openAction =
      some [PdfValue.num 0, PdfValue.name "/Fit"] :=
  ⟨rfl, rfl, rfl, rfl⟩
